import Mathlib

/-!
Verification of the fridge-bot conversation core (src/bot.py and the
refactored src/app package) against its specification.

Strings are embedded as lists of characters (`Str`); the Python string
operations the code uses (strip, split, lower, substring containment) are
defined below, following CPython semantics on the character level
(`Char.toLower`/`Char.isWhitespace` approximate Python's Unicode tables on
the ASCII range; no claim depends on the difference).  Russian message
literals follow src/bot.py, whose literals are readable; src/app/handlers.py
carries the same texts in a mojibake (double-encoded) rendering, and no
claim depends on the raw bytes of a message.
-/

namespace FridgeBot

/-- Strings as lists of characters. -/
abbrev Str := List Char

/-- Python str.strip(): remove leading and trailing whitespace. -/
def stripWs (s : Str) : Str :=
  ((s.dropWhile Char.isWhitespace).reverse.dropWhile Char.isWhitespace).reverse

/-- Python str.lower(), character by character. -/
def pyLower (s : Str) : Str := s.map Char.toLower

/-- Helper for `splitWs`: accumulates the current word in reverse. -/
def splitWsAux : Str → Str → List Str
  | [], acc => if acc.isEmpty then [] else [acc.reverse]
  | c :: cs, acc =>
    if c.isWhitespace then
      if acc.isEmpty then splitWsAux cs [] else acc.reverse :: splitWsAux cs []
    else splitWsAux cs (c :: acc)

/-- Python str.split() with no separator: split on whitespace runs, never
producing empty words. -/
def splitWs (s : Str) : List Str := splitWsAux s []

/-- Helper for `splitOnChar`. -/
def splitOnCharAux (sep : Char) : Str → Str → List Str
  | [], acc => [acc.reverse]
  | c :: cs, acc =>
    if c = sep then acc.reverse :: splitOnCharAux sep cs []
    else splitOnCharAux sep cs (c :: acc)

/-- Split on a single separator character, keeping empty pieces
(Python str.split(sep)). -/
def splitOnChar (sep : Char) (s : Str) : List Str := splitOnCharAux sep s []

/-- Python substring containment, `needle in hay`. -/
def isSub : Str → Str → Bool
  | n, [] => n.isEmpty
  | n, h :: t => n.isPrefixOf (h :: t) || isSub n t

/-- Python int(p) for a token of decimal digits. -/
def digitsToNat (s : Str) : Nat := s.foldl (fun n c => 10 * n + (c.toNat - 48)) 0

/-- Decimal rendering of a number, as used by the f-string replies. -/
def natStr (n : Nat) : Str := (Nat.repr n).data

/-- Concatenation of the pieces produced by a function (used instead of
Python list building in message construction). -/
def concatMap (f : α → List β) : List α → List β
  | [] => []
  | a :: l => f a ++ concatMap f l

/-- Python str.strip(chars): remove leading and trailing characters drawn
from the given set. -/
def stripSet (cs : List Char) (s : Str) : Str :=
  ((s.dropWhile (fun c => cs.contains c)).reverse.dropWhile (fun c => cs.contains c)).reverse

/-- Truthiness of an optional string, as Python tests a dict value. -/
def truthy : Option Str → Bool
  | some s => !s.isEmpty
  | none => false

/-- app/utils.py esc: HTML-escape ampersand and angle brackets. -/
def esc (s : Str) : Str :=
  concatMap (fun c =>
    if c = '&' then ("&amp;".data)
    else if c = '<' then ("&lt;".data)
    else if c = '>' then ("&gt;".data)
    else [c]) s

/-- app/utils.py parse_add_lines: the non-blank lines of a message, each
stripped. -/
def parse_add_lines (s : Str) : List Str :=
  (((splitOnChar '\n' s)).map stripWs).filter (fun l => !l.isEmpty)

/-- app/utils.py parse_delete_nums: replace commas and semicolons by
spaces, split on whitespace, keep the digit-only tokens as numbers, and
return sorted(set(..)) of them. -/
def parse_delete_nums (s : Str) : List Nat :=
  let cleaned := s.map (fun c => if c = ',' ∨ c = ';' then ' ' else c)
  let parts := splitWs cleaned
  let nums := (parts.filter (fun p => !p.isEmpty && p.all Char.isDigit)).map digitsToNat
  List.insertionSort (· ≤ ·) nums.dedup

/-- app/utils.py norm: lowercase, strip, and collapse internal whitespace
runs to single spaces. -/
def norm (s : Str) : Str := List.intercalate ([' ']) (splitWs (pyLower s))

/-! ## Configuration (app/config.py) -/

/-- Valid item categories. -/
def VALID_KINDS : List Str := [("meal".data), ("ingredient".data)]

/-- Valid storage locations. -/
def VALID_PLACES : List Str := [("fridge".data), ("freezer".data), ("kitchen".data)]

/-- KIND_LABEL lookup; the source only indexes it with a valid kind. -/
def kindLabel (k : Str) : Str :=
  if k = ("meal".data) then ("Готовые блюда".data)
  else if k = ("ingredient".data) then ("Ингредиенты".data)
  else []

/-- KIND_LABEL.get(kind, kind). -/
def kindLabelD (k : Str) : Str :=
  if k = ("meal".data) ∨ k = ("ingredient".data) then kindLabel k else k

/-- PLACE_LABEL lookup. -/
def placeLabel (p : Str) : Str :=
  if p = ("fridge".data) then ("Холодильник".data)
  else if p = ("kitchen".data) then ("Кухня".data)
  else if p = ("freezer".data) then ("Морозилка".data)
  else []

/-- PLACE_LABEL.get(place, place). -/
def placeLabelD (p : Str) : Str :=
  if p = ("fridge".data) ∨ p = ("kitchen".data) ∨ p = ("freezer".data) then placeLabel p else p

/-! ## Data model

One durable relation of items.  Timestamps are abstracted to integers
(`created_at` is only ever compared, formatted, and reset by the code
under verification). -/

/-- A persisted inventory row. -/
structure Item where
  id : Nat
  kind : Str
  place : Str
  text : Str
  date : Int
deriving DecidableEq

/-- The inventory store: the rows in insertion (id) order together with the
next id the engine will assign. -/
structure Store where
  rows : List Item
  nextId : Nat
deriving DecidableEq

/-- A row of db_all_raw, (id, kind, place, text). -/
structure RawRow where
  id : Nat
  kind : Str
  place : Str
  text : Str
deriving DecidableEq

/-- A row of db_all_raw_with_date. -/
structure RawRowD where
  id : Nat
  kind : Str
  place : Str
  text : Str
  date : Int
deriving DecidableEq

/-- A row of db_list, as snapshotted into the session working set. -/
structure SnapRow where
  id : Nat
  text : Str
  date : Int
deriving DecidableEq

/-- A not-yet-confirmed batch of photo-recognized items. -/
structure Pending where
  kind : Str
  place : Str
  items : List Str
deriving DecidableEq

/-- A JSON atom inside the resolver's items list: a string, or a non-string
value together with its str() rendering (the delete path stringifies
non-strings, the add path skips them). -/
inductive JAtom where
  | js (s : Str)
  | nonstr (rendered : Str)
deriving DecidableEq

/-- Python str(x) of a list element. -/
def JAtom.toStr : JAtom → Str
  | .js s => s
  | .nonstr r => r

/-- The untrusted `items` field of a resolver result: a JSON string, a JSON
list, or some other JSON value. -/
inductive AiItems where
  | single (s : Str)
  | many (xs : List JAtom)
  | bad
deriving DecidableEq

/-- The untrusted structured guess returned by ai_parse_text; absent JSON
keys are `none`. -/
structure AiResult where
  action : Str
  kind : Option Str := none
  place : Option Str := none
  items : Option AiItems := none
deriving DecidableEq

/-- The per-user session dictionary (context.user_data).  A `none` (or, for
editRows, `[]`) field is an absent key; `delRows`/`moveRows` distinguish an
absent key from a present empty snapshot because the source tests key
presence for them. -/
structure Session where
  act : Option Str := none
  kind : Option Str := none
  place : Option Str := none
  editField : Option Str := none
  editRows : List SnapRow := []
  delRows : Option (List SnapRow) := none
  moveRows : Option (List SnapRow) := none
  moveFrom : Option Str := none
  moveTo : Option Str := none
  photoMode : Option Str := none
  photoKind : Option Str := none
  pendingPhoto : Option Pending := none
deriving DecidableEq

/-- context.user_data.clear(). -/
def emptySession : Session := {}

/-! ## Store operations (src/app/db.py, src/bot.py)

Each operation is a single atomic store transformation; SQL ordering
clauses are realized on the Lean side by an explicit sort. -/

/-- app/db.py db_add: strip the text, silently skip a blank insert,
otherwise append a fresh row.  (Kind/place validation happens at this
function's call sites in the app package.) -/
def db_add (now : Int) (st : Store) (kind place text : Str) : Store :=
  let t := stripWs text
  if t.isEmpty then st
  else { rows := st.rows ++ [⟨st.nextId, kind, place, t, now⟩], nextId := st.nextId + 1 }

/-- src/bot.py db_add: additionally coerces an invalid kind/place to the
defaults ingredient/fridge before the insert. -/
def bot_db_add (now : Int) (st : Store) (kind place text : Str) : Store :=
  let t := stripWs text
  if t.isEmpty then st
  else
    let k := if kind ∈ VALID_KINDS then kind else ("ingredient".data)
    let p := if place ∈ VALID_PLACES then place else ("fridge".data)
    { rows := st.rows ++ [⟨st.nextId, k, p, t, now⟩], nextId := st.nextId + 1 }

/-- The row invariant of §3: valid enum values and a non-empty trimmed
text (the stored text is its own trim). -/
def validItem (it : Item) : Prop :=
  it.kind ∈ VALID_KINDS ∧ it.place ∈ VALID_PLACES ∧ stripWs it.text = it.text ∧ it.text ≠ []

/-- db_delete: remove the row with the given id (a no-op when absent). -/
def db_delete (st : Store) (i : Nat) : Store :=
  { st with rows := st.rows.filter (fun it => it.id ≠ i) }

/-- db_all_raw: all rows as (id, kind, place, text), in id order (the store
keeps its rows in id order). -/
def db_all_raw (st : Store) : List RawRow :=
  st.rows.map (fun it => ⟨it.id, it.kind, it.place, it.text⟩)

/-- Modelled from the spec: db_all_raw_with_date (imported by
src/app/handlers.py; its definition is not among the source files) — the
flat relation of rows with their creation timestamps, §6's list_all_raw
surface extended with created_at. -/
def db_all_raw_with_date (st : Store) : List RawRowD :=
  st.rows.map (fun it => ⟨it.id, it.kind, it.place, it.text, it.date⟩)

/-- Orders a working-set snapshot the way the SQL `ORDER BY created_at, id`
does. -/
def snapLe (a b : SnapRow) : Prop := a.date < b.date ∨ (a.date = b.date ∧ a.id ≤ b.id)

instance : DecidableRel snapLe := fun a b => by unfold snapLe; infer_instance

/-- db_list: the rows of one (kind, place), ordered by created_at then id. -/
def db_list (st : Store) (kind place : Str) : List SnapRow :=
  List.insertionSort snapLe
    ((st.rows.filter (fun it => decide (it.kind = kind ∧ it.place = place))).map
      (fun it => ⟨it.id, it.text, it.date⟩))

/-- Modelled from the spec: update_text(id, text) (§6; db_update_text is
imported by src/app/handlers.py but not among the source files). -/
def db_update_text (st : Store) (i : Nat) (t : Str) : Store :=
  { st with rows := st.rows.map (fun it => if it.id = i then { it with text := t } else it) }

/-- Modelled from the spec: update_created_at(id, timestamp) (§6). -/
def db_update_created_at (st : Store) (i : Nat) (d : Int) : Store :=
  { st with rows := st.rows.map (fun it => if it.id = i then { it with date := d } else it) }

/-- Modelled from the spec: update_location_and_date(id, location,
timestamp) (§6) — a Move retargets the location and resets the date. -/
def db_update_place_and_date (st : Store) (i : Nat) (p : Str) (d : Int) : Store :=
  { st with rows := st.rows.map (fun it => if it.id = i then { it with place := p, date := d } else it) }

/-! ## Fuzzy matcher (find_matches in src/app/handlers.py and src/bot.py) -/

/-- find_matches: normalize the query; empty query matches nothing; exact
normalized matches take precedence; otherwise substring containment in
either direction.  The source's two list comprehensions over the rows are
rendered as filter-then-map. -/
def find_matches (rows : List RawRow) (query : Str) : List (Nat × Str) :=
  let q := norm query
  if q.isEmpty then []
  else
    let exact := (rows.filter (fun r => decide (norm r.text = q))).map (fun r => (r.id, r.text))
    if !exact.isEmpty then exact
    else
      (rows.filter (fun r => isSub q (norm r.text) || isSub (norm r.text) q)).map
        (fun r => (r.id, r.text))

/-! ## Reply texts

Each f-string reply of the handlers, built from the literal text of
src/bot.py (src/app/handlers.py carries the same replies, mojibake-encoded,
plus HTML tags on some of them; no claim depends on the bytes of the
Russian copy). -/

/-- Join message lines with newlines ("\n".join). -/
def joinNl (lines : List Str) : Str := List.intercalate (['\n']) lines

/-- Modelled from the spec: the main-menu/welcome text (app/welcome.py is
not among the source files; only the fact that the handler returns to the
idle main menu matters to the claims). -/
def WELCOME_TEXT : Str := ("Главное меню:".data)

/-- Reply of the index-delete flow when no token is numeric. -/
def msgDelHelp : Str :=
  ("Для удаления отправь номер(а) строк.\nПримеры: 2 или 1 4 или 1, 4\n/cancel — отмена.".data)

/-- Reply of the index-move flow when no token is numeric. -/
def msgMoveHelp : Str :=
  ("Отправь номер(а) строк для переноса. Примеры: 2 или 1 4 или 1, 4".data)

/-- Range hint shown when every submitted index is out of range. -/
def msgRange (n : Nat) : Str :=
  ("Сейчас доступно 1..".data) ++ natStr n ++ (". Попробуй снова.".data)

/-- Count reply after an index deletion. -/
def msgDeleted (k : Nat) : Str :=
  ("Удалил ✅ ".data) ++ natStr k ++ (" шт.".data)

/-- Count reply after an index move. -/
def msgMoved (k : Nat) : Str :=
  ("Переложил ✅ ".data) ++ natStr k ++ (" шт. (дата обновлена)".data)

/-- Reply when the move flow has no destination recorded. -/
def msgNoDest : Str := ("Не выбрано место назначения.".data)

/-- Reply when a manual add message holds no non-blank line. -/
def msgAddEmpty : Str := ("Пусто. Напиши хотя бы одну строку или /cancel.".data)

/-- Count reply after a manual add. -/
def msgAdded (k : Nat) : Str :=
  ("Добавил ✅ ".data) ++ natStr k ++ (" шт.".data)

/-- Reply when the AI add intent carries no usable items. -/
def msgAiAddNone : Str := ("Не понял, что добавить. Используй кнопки 👇".data)

/-- Count reply of the AI add branch. -/
def msgAiAdded (k : Nat) (kind place : Str) : Str :=
  ("🤖 Добавил ".data) ++ natStr k ++ (" шт.\n".data) ++ kindLabel kind
    ++ (" → ".data) ++ placeLabel place

/-- Reply when the AI delete intent carries no usable items. -/
def msgAiDelNone : Str := ("Не понял, что удалить. Используй кнопки 👇".data)

/-- Count reply of the AI delete branch when no phrase was ambiguous. -/
def msgAiDeleted (k : Nat) : Str :=
  ("🤖 Удалил ".data) ++ natStr k ++ (" шт.".data)

/-- The numbered candidate lines of one ambiguous phrase (enumerate from 1). -/
def numberMatches (i : Nat) : List (Nat × Str) → List Str
  | [] => []
  | (_, t) :: ms => (("  ".data) ++ natStr i ++ (") ".data) ++ esc t) :: numberMatches (i + 1) ms

/-- The message block of one ambiguous phrase: its header plus the first
ten candidate matches. -/
def ambEntryLines (e : Str × List (Nat × Str)) : List Str :=
  (("\n• «".data) ++ esc e.1 ++ ("» подходит к нескольким:".data)) :: numberMatches 1 (e.2.take 10)

/-- The ambiguity report of an AI delete request. -/
def msgAmb (ab : List (Str × List (Nat × Str))) : Str :=
  joinNl ((("Часть позиций не удалил — нужно уточнить:".data) :: concatMap ambEntryLines ab)
    ++ [("\nНапиши точнее (например: «удали рыбный суп»).".data)])

/-- Fallback reply of the free-text router. -/
def msgUnknown : Str := ("Не понял. Используй кнопки 👇".data)

/-- Reminder sent for any text while a photo is awaited. -/
def msgWaitPhoto (kind : Str) : Str :=
  ("Сейчас жду <b>фото</b> для: <b>".data) ++ kindLabelD kind
    ++ ("</b>.\nПришли фото одним сообщением.".data)

/-- Rejection sent for a photo while no photo is awaited. -/
def msgPhotoReject : Str :=
  ("Фото сейчас не принимаю.\nНажми «📷 Добавить по фото» и следуй шагам.".data)

/-- Reply when the photo resolver recognized nothing. -/
def msgPhotoFail : Str :=
  ("По фото не смог уверенно распознать.\nПопробуй другое фото.".data)

/-- Confirmation prompt listing the recognized items (first 30 previewed). -/
def msgPhotoPreview (kind : Str) (items : List Str) : Str :=
  ("Я предлагаю добавить:\n\n<b>".data) ++ kindLabel kind
    ++ ("</b> → <b>".data) ++ placeLabel ("fridge".data) ++ ("</b>\n\n".data)
    ++ joinNl ((items.take 30).map (fun x => ("• ".data) ++ esc x))
    ++ ("\n\nПодтвердить?".data)

/-- Count reply after a confirmed photo batch. -/
def msgPhotoAdded (k : Nat) (kind place : Str) : Str :=
  ("Добавил ✅ ".data) ++ natStr k ++ (" шт. (".data) ++ kindLabel kind
    ++ (" → ".data) ++ placeLabel place ++ (")".data)

/-- Reply when an inventory query matches nothing. -/
def msgQueryNotFound : Str := ("Похоже, этого нет в списке.".data)

/-- Rendering of the created_at of a found row; the source formats the
timestamp as dd.mm.yyyy, here abstracted to the integer code's decimals. -/
def fmtDate (d : Int) : Str := natStr d.toNat

/-- Reply listing the rows an inventory query matched (first 20). -/
def msgFound (ms : List RawRowD) : Str :=
  joinNl ((("Нашёл:".data) ::
    (ms.take 20).map (fun r =>
      ("• ".data) ++ esc r.text ++ (" — ".data) ++ placeLabelD r.place
        ++ (" — ".data) ++ kindLabelD r.kind ++ (" — ".data) ++ fmtDate r.date)))

/-- Edit-flow replies. -/
def msgEditPriv : Str := ("Редактирование доступно только в личке.".data)

/-- Reply when the user lacks edit rights. -/
def msgEditRights : Str := ("Недостаточно прав.".data)

/-- Reply when an edit message is not "number value". -/
def msgEditFormat : Str :=
  ("Нужен номер и значение. Пример: <b>2 Новое название</b> или <b>2 04.02.2026</b>.".data)

/-- Reply when the edited new name is blank. -/
def msgEditEmptyName : Str := ("Новое название пустое.".data)

/-- Reply when the edited date does not parse. -/
def msgEditBadDate : Str := ("Неверная дата. Формат: <b>дд.мм.гггг</b>.".data)

/-- Reply when no edit field was chosen yet. -/
def msgEditChooseField : Str := ("Сначала выбери, что редактировать.".data)

/-- Reply after a successful edit. -/
def msgEditDone : Str := ("Готово. Можно редактировать дальше.".data)

/-! ## Free-text query extraction (_extract_query, _find_query_matches) -/

/-- The prefixes the query extractor strips. -/
def queryPrefixes : List Str := [
  ("есть ли у нас".data), ("осталась ли у нас".data), ("осталось ли у нас".data),
  ("у нас есть ли".data), ("у нас осталась ли".data), ("у нас осталось ли".data),
  ("есть ли".data), ("осталась ли".data), ("осталось ли".data)]

/-- The phrases searched for inside the message when no prefix matched. -/
def queryInfixes : List Str :=
  [("есть ли".data), ("осталась ли".data), ("осталось ли".data)]

/-- The characters Python strip(" ?!.,") removes around an extracted query. -/
def qmChars : List Char := [' ', '?', '!', '.', ',']

/-- Python raw.split(p, 1)[1]: the suffix after the first occurrence of the
needle (the whole string stays when the needle does not occur). -/
def afterFirst (needle : Str) : Str → Str
  | [] => []
  | h :: t => if needle.isPrefixOf (h :: t) then (h :: t).drop needle.length else afterFirst needle t

/-- _extract_query: recognize a "do we have ..." style question and return
the queried phrase, or the empty string for a non-question. -/
def extract_query (text : Str) : Str :=
  let raw := stripWs (pyLower text)
  if raw.isEmpty then []
  else
    match queryPrefixes.find? (fun p => p.isPrefixOf raw) with
    | some p => stripSet qmChars (raw.drop p.length)
    | none =>
      match queryInfixes.find? (fun p => isSub p raw) with
      | some p => stripSet qmChars (afterFirst p raw)
      | none => if (['?']).isSuffixOf raw then stripSet qmChars raw else []

/-- _find_query_matches: the fuzzy matcher over full rows with dates. -/
def find_query_matches (rows : List RawRowD) (query : Str) : List RawRowD :=
  let q := norm query
  if q.isEmpty then []
  else
    let exact := rows.filter (fun r => decide (norm r.text = q))
    if !exact.isEmpty then exact
    else rows.filter (fun r => isSub q (norm r.text) || isSub (norm r.text) q)

/-! ## Text-message branches (on_text of src/app/handlers.py; src/bot.py
carries the same manual-delete and AI branches) -/

/-- Descending order on indices, sorted(valid, reverse=True). -/
def descNat (a b : Nat) : Prop := b ≤ a

instance : DecidableRel descNat := fun a b => by unfold descNat; infer_instance

/-- Apply db_delete for each resolved id in turn. -/
def applyDeletes (st : Store) (ids : List Nat) : Store := ids.foldl db_delete st

/-- Placeholder row (indices are validated before any lookup). -/
def dummySnap : SnapRow := ⟨0, [], 0⟩

/-- The 1-based indices of `nums` that fall inside the working set. -/
def validIdx (rows : List SnapRow) (nums : List Nat) : List Nat :=
  nums.filter (fun n => decide (1 ≤ n ∧ n ≤ rows.length))

/-- Translate display indices into the snapshot's stable ids. -/
def snapIds (rows : List SnapRow) (nums : List Nat) : List Nat :=
  nums.map (fun n => (rows.getD (n - 1) dummySnap).id)

/-- The delete-by-index branch: parse indices, drop the out-of-range ones,
delete the snapshot ids of the valid ones in descending index order, and
refresh the snapshot; with no valid index the session is left untouched. -/
def delBranch (s : Session) (st : Store) (rows : List SnapRow) (text : Str) :
    Session × Store × Str :=
  let nums := parse_delete_nums text
  if nums.isEmpty then (s, st, msgDelHelp)
  else
    let valid := validIdx rows nums
    if valid.isEmpty then (s, st, msgRange rows.length)
    else
      let st2 := applyDeletes st (snapIds rows (List.insertionSort descNat valid))
      let s2 := { s with delRows := some (match s.kind, s.place with
        | some k, some p => db_list st2 k p
        | _, _ => []) }
      (s2, st2, msgDeleted valid.length)

/-- The move-by-index branch. -/
def moveBranch (now : Int) (s : Session) (st : Store) (rows : List SnapRow) (text : Str) :
    Session × Store × Str :=
  let nums := parse_delete_nums text
  if nums.isEmpty then (s, st, msgMoveHelp)
  else
    let valid := validIdx rows nums
    if valid.isEmpty then (s, st, msgRange rows.length)
    else
      match s.moveTo with
      | some toP =>
        if toP ∈ VALID_PLACES then
          let st2 := (snapIds rows (List.insertionSort descNat valid)).foldl
            (fun acc i => db_update_place_and_date acc i toP now) st
          let s2 := if truthy s.kind && truthy s.moveFrom then
              { s with moveRows := some (db_list st2 (s.kind.getD []) (s.moveFrom.getD [])) }
            else s
          (s2, st2, msgMoved valid.length)
        else (s, st, msgNoDest)
      | none => (s, st, msgNoDest)

/-- The manual add branch: one item per non-blank line, then reset to the
main menu. -/
def addBranch (now : Int) (s : Session) (st : Store) (kind place : Str) (raw : Str) :
    Session × Store × Str :=
  let items := parse_add_lines raw
  if items.isEmpty then (s, st, msgAddEmpty)
  else
    let st2 := items.foldl (fun acc t => db_add now acc kind place t) st
    (emptySession, st2, msgAdded items.length)

/-- The inventory-question branch. -/
def queryBranch (s : Session) (st : Store) (qy : Str) : Session × Store × Str :=
  let ms := find_query_matches (db_all_raw_with_date st) qy
  if ms.isEmpty then (s, st, msgQueryNotFound) else (s, st, msgFound ms)

/-- ai.get("items", []) followed by the str-wrapping and list check:
`none` means the field was present but not a string or list. -/
def normalizeItems : Option AiItems → Option (List JAtom)
  | none => some []
  | some (.single s) => some [JAtom.js s]
  | some (.many xs) => some xs
  | some .bad => none

/-- The AI add loop: insert every string item that is non-blank after
stripping, counting the insertions; non-strings and blank strings are
skipped and not counted. -/
def addJAtoms (now : Int) (st : Store) (kind place : Str) (xs : List JAtom) : Store × Nat :=
  xs.foldl (fun acc a =>
    match a with
    | .js i => if (stripWs i).isEmpty then acc else (db_add now acc.1 kind place (stripWs i), acc.2 + 1)
    | .nonstr _ => acc) (st, 0)

/-- The AI add branch: coerce untrusted kind/place to the defaults, insert
the usable items, report the count. -/
def aiAddBranch (now : Int) (s : Session) (st : Store) (ai : AiResult) :
    Session × Store × Str :=
  let kind0 := ai.kind.getD ("ingredient".data)
  let place0 := ai.place.getD ("fridge".data)
  match normalizeItems ai.items with
  | none => (s, st, msgAiAddNone)
  | some [] => (s, st, msgAiAddNone)
  | some xs =>
    let kind := if kind0 ∈ VALID_KINDS then kind0 else ("ingredient".data)
    let place := if place0 ∈ VALID_PLACES then place0 else ("fridge".data)
    let r := addJAtoms now st kind place xs
    (s, r.1, msgAiAdded r.2 kind place)

/-- The AI delete loop over one request's phrases, against the snapshot of
rows taken once at the start of the request: a unique match is deleted, a
multiple match is collected as ambiguous with its full match list, a zero
match contributes nothing. -/
def aiDeleteLoop (rows : List RawRow) : List Str → List Nat × List (Str × List (Nat × Str))
  | [] => ([], [])
  | q :: qs =>
    let rest := aiDeleteLoop rows qs
    match find_matches rows q with
    | [] => rest
    | [m] => (m.1 :: rest.1, rest.2)
    | m1 :: m2 :: ms => (rest.1, (q, m1 :: m2 :: ms) :: rest.2)

/-- Deletions plus the final reply of one AI delete request. -/
def aiDeleteRun (st : Store) (rows : List RawRow) (qs : List Str) : Store × Str :=
  let r := aiDeleteLoop rows qs
  (applyDeletes st r.1, if r.2.isEmpty then msgAiDeleted r.1.length else msgAmb r.2)

/-- The AI delete branch: extract the phrases, pre-filter the candidate pool
by the validated place/kind hints, then run the loop. -/
def aiDeleteBranch (s : Session) (st : Store) (ai : AiResult) : Session × Store × Str :=
  match normalizeItems ai.items with
  | none => (s, st, msgAiDelNone)
  | some [] => (s, st, msgAiDelNone)
  | some xs =>
    let queries := (xs.map (fun a => stripWs a.toStr)).filter (fun q => !q.isEmpty)
    if queries.isEmpty then (s, st, msgAiDelNone)
    else
      let rows0 := db_all_raw st
      let rows1 := match ai.place with
        | some p => if p ∈ VALID_PLACES then rows0.filter (fun r => decide (r.place = p)) else rows0
        | none => rows0
      let rows2 := match ai.kind with
        | some k => if k ∈ VALID_KINDS then rows1.filter (fun r => decide (r.kind = k)) else rows1
        | none => rows1
      let r := aiDeleteRun st rows2 queries
      (s, r.1, r.2)

/-- Models the source's _parse_ddmmyyyy (datetime.strptime with format
dd.mm.yyyy); timestamps are abstracted to an integer encoding of the
accepted date. -/
def parse_ddmmyyyy (s : Str) : Option Int :=
  match splitOnChar '.' (stripWs s) with
  | [d, m, y] =>
    if (!d.isEmpty && d.all Char.isDigit) && (!m.isEmpty && m.all Char.isDigit)
        && (y.length = 4 && y.all Char.isDigit) && d.length ≤ 2 && m.length ≤ 2 then
      let dv := digitsToNat d
      let mv := digitsToNat m
      let yv := digitsToNat y
      if 1 ≤ dv ∧ dv ≤ 31 ∧ 1 ≤ mv ∧ mv ≤ 12 then
        some (Int.ofNat (yv * 10000 + mv * 100 + dv))
      else none
    else none
  | _ => none

/-- Refresh the edit snapshot after a mutation, when a category and place
are recorded. -/
def editRefresh (s : Session) (st : Store) : Session :=
  if truthy s.kind && truthy s.place then
    { s with editRows := db_list st (s.kind.getD []) (s.place.getD []) }
  else s

/-- The edit branch of on_text; `none` means the branch fell through to the
rest of the handler (no edit field or an empty snapshot). -/
def editBranch (priv admin : Bool) (s : Session) (st : Store) (text : Str) :
    Option (Session × Store × Str) :=
  if !priv then some (s, st, msgEditPriv)
  else if !admin then some (s, st, msgEditRights)
  else if truthy s.editField && !s.editRows.isEmpty then
    let rows := s.editRows
    let parts := splitWs text
    let p0 := parts.headD []
    if parts.length < 2 || !(!p0.isEmpty && p0.all Char.isDigit) then some (s, st, msgEditFormat)
    else
      let idx := digitsToNat p0
      if idx < 1 ∨ rows.length < idx then some (s, st, msgRange rows.length)
      else
        let itemId := (rows.getD (idx - 1) dummySnap).id
        let f := s.editField.getD []
        let value := stripWs (List.intercalate ([' ']) parts.tail)
        if f = ("text".data) then
          if value.isEmpty then some (s, st, msgEditEmptyName)
          else
            let st2 := db_update_text st itemId value
            some (editRefresh s st2, st2, msgEditDone)
        else if f = ("date".data) then
          match parse_ddmmyyyy value with
          | none => some (s, st, msgEditBadDate)
          | some dv =>
            let st2 := db_update_created_at st itemId dv
            some (editRefresh s st2, st2, msgEditDone)
        else some (s, st, msgEditChooseField)
  else none

/-- on_text after the edit branch: the photo gate first, then the
move/add/delete flows, then the inventory question, then the AI intents. -/
def on_text_afterEdit (ai : AiResult) (now : Int) (s : Session) (st : Store) (raw : Str) :
    Session × Store × Str :=
  let text := stripWs raw
  if s.photoMode = some ("wait_photo".data) then
    (s, st, msgWaitPhoto (s.photoKind.getD ("ingredient".data)))
  else if decide (s.act = some ("move".data)) && s.moveRows.isSome then
    moveBranch now s st (s.moveRows.getD []) text
  else if decide (s.act = some ("add".data)) && truthy s.kind && truthy s.place then
    addBranch now s st (s.kind.getD []) (s.place.getD []) raw
  else if decide (s.act = some ("del".data)) && s.delRows.isSome then
    delBranch s st (s.delRows.getD []) text
  else
    let qy := extract_query text
    if !qy.isEmpty then queryBranch s st qy
    else if ai.action = ("add".data) then aiAddBranch now s st ai
    else if ai.action = ("delete".data) then aiDeleteBranch s st ai
    else (s, st, msgUnknown)

/-- on_text: the complete text-message router.  The resolver call
ai_parse_text is an external boundary; its result enters as the `ai`
argument and is consulted only by the AI branches. -/
def on_text (priv admin : Bool) (ai : AiResult) (now : Int) (s : Session) (st : Store)
    (raw : Str) : Session × Store × Str :=
  let text := stripWs raw
  if s.act = some ("edit".data) then
    match editBranch priv admin s st text with
    | some r => r
    | none => on_text_afterEdit ai now s st raw
  else on_text_afterEdit ai now s st raw

/-! ## Photo flow (on_photo, ai_parse_photo, photo:confirm) -/

/-- The item-list sanitation both photo layers apply: stringify, strip, and
drop blanks. -/
def cleanItems (xs : List Str) : List Str := (xs.map stripWs).filter (fun x => !x.isEmpty)

/-- The raw `items` field of the photo resolver's JSON, as a string list
(a lone string is wrapped, a non-list becomes empty). -/
def rawItemsList : AiItems → List Str
  | .single s => [s]
  | .many xs => xs.map JAtom.toStr
  | .bad => []

/-- app/ai.py ai_parse_photo, happy path after the JSON parse: the coerced
pre-selected kind and the sanitized item list, truncated to one name for a
meal.  (The full result dict also carries action="add" and place="fridge",
both constant.) -/
def ai_parse_photo (kind : Str) (raw : AiItems) : Str × List Str :=
  let k := if kind ∈ VALID_KINDS then kind else ("ingredient".data)
  let items := cleanItems (rawItemsList raw)
  (k, if k = ("meal".data) then items.take 1 else items)

/-- app/handlers.py on_photo: reject the photo outright unless one is
awaited; otherwise sanitize the resolved names again, truncate a meal to a
single dish again, and stage the pending candidate (the store is not
touched before confirmation). -/
def on_photo (parsed : List Str) (s : Session) : Session × Str :=
  if s.photoMode ≠ some ("wait_photo".data) then (s, msgPhotoReject)
  else
    let kind0 := s.photoKind.getD ("ingredient".data)
    let kind := if kind0 ∈ VALID_KINDS then kind0 else ("ingredient".data)
    let items0 := cleanItems parsed
    let items := if kind = ("meal".data) then items0.take 1 else items0
    if items.isEmpty then (s, msgPhotoFail)
    else ({ s with pendingPhoto := some ⟨kind, ("fridge".data), items⟩ }, msgPhotoPreview kind items)

/-- The photo-confirm insert loop over the pending names: insert each name
that is non-blank after stripping and count it; blanks are skipped and not
counted. -/
def addStrs (now : Int) (kind place : Str) : Store → List Str → Store × Nat
  | st, [] => (st, 0)
  | st, i :: items =>
    if (stripWs i).isEmpty then addStrs now kind place st items
    else
      let r := addStrs now kind place (db_add now st kind place (stripWs i)) items
      (r.1, r.2 + 1)

/-- app/handlers.py on_button, the photo:confirm case: with no pending
candidate the session is reset to the main menu and nothing is added;
otherwise the pending batch is inserted under re-coerced kind/place. -/
def on_button_photo_confirm (now : Int) (s : Session) (st : Store) : Session × Store × Str :=
  match s.pendingPhoto with
  | none => (emptySession, st, WELCOME_TEXT)
  | some pending =>
    let kind := if pending.kind ∈ VALID_KINDS then pending.kind else ("ingredient".data)
    let place := if pending.place ∈ VALID_PLACES then pending.place else ("fridge".data)
    let r := addStrs now kind place st pending.items
    (emptySession, r.1, msgPhotoAdded r.2 kind place)

/-! ## Scheduled digest builders (_build_morning_message /
_build_evening_message)

Both builders share the same deterministic core: keep the meal items whose
created_at parses, compute each one's age in days, sort by key
(-days, text.lower()), list the first three and flag the stale ones.  The
randomly drawn greeting line is outside the embedded core.  Calendar dates
are abstracted to day numbers: a digest item carries the day its
created_at falls on (`none` when _coerce_dt fails), and `nowDay` is the day
the job runs. -/

/-- An input row of the digest builders, as returned by the store query. -/
structure DigestItem where
  kind : Str
  text : Str
  date : Option Int
deriving DecidableEq

/-- One digest entry: the item's age in days and its name. -/
structure Entry where
  days : Int
  text : Str
deriving DecidableEq

/-- The Python sort key (-days, text.lower()) under the lexicographic
product order. -/
def entryKey (e : Entry) : Lex (Int × Str) := toLex (-e.days, pyLower e.text)

/-- entries.sort(key=lambda x: (-x[0], x[2].lower())) compares these keys. -/
def entryLe (a b : Entry) : Prop := entryKey a ≤ entryKey b

instance : DecidableRel entryLe := fun a b => by unfold entryLe; infer_instance

instance : IsTotal Entry entryLe := ⟨fun a b => le_total (entryKey a) (entryKey b)⟩

instance : IsTrans Entry entryLe := ⟨fun _ _ _ h1 h2 => le_trans h1 h2⟩

/-- The digest's sorted entry list. -/
def digest_entries (nowDay : Int) (items : List DigestItem) : List Entry :=
  List.insertionSort entryLe
    (items.filterMap (fun it =>
      if it.kind = ("meal".data) then it.date.map (fun d => ⟨nowDay - d, it.text⟩) else none))

/-- The staleness marker appended to an item listed for at least 3 days. -/
def staleFlag : Str := (" (лежит >3х дней ⏳)".data)

/-- The bullet lines of the digest body: the first three entries, each
flagged exactly when its age is at least 3 days. -/
def digest_lines (nowDay : Int) (items : List DigestItem) : List Str :=
  ((digest_entries nowDay items).take 3).map (fun e =>
    ("• ".data) ++ e.text ++ (if 3 ≤ e.days then staleFlag else []))

/-! ## Concrete fixtures used by counterexamples and witnesses -/

/-- A three-row working set. -/
def exRows3 : List SnapRow := [⟨1, ("рагу".data), 0⟩, ⟨2, ("суп".data), 0⟩, ⟨3, ("плов".data), 0⟩]

/-- The store backing `exRows3`. -/
def exStore3 : Store :=
  ⟨[⟨1, ("meal".data), ("fridge".data), ("рагу".data), 0⟩,
    ⟨2, ("meal".data), ("fridge".data), ("суп".data), 0⟩,
    ⟨3, ("meal".data), ("fridge".data), ("плов".data), 0⟩], 4⟩

/-- A session sitting in the delete-by-index step over `exRows3`. -/
def exSessionDel : Session :=
  { act := some ("del".data), kind := some ("meal".data), place := some ("fridge".data),
    delRows := some exRows3 }

/-- A one-row store holding only bread. -/
def exStore1 : Store := ⟨[⟨1, ("meal".data), ("fridge".data), ("хлеб".data), 0⟩], 2⟩

/-- db_all_raw of `exStore1`. -/
def exRows1 : List RawRow := [⟨1, ("meal".data), ("fridge".data), ("хлеб".data)⟩]

/-- A resolver result carrying no usable intent. -/
def aiUnknown : AiResult := ⟨("unknown".data), none, none, none⟩

/-- A session awaiting a photo that also carries a live edit flow: reachable
by entering the photo flow (photo:kind: clears the session and sets
photo_mode) and then pressing stale edit-flow inline buttons, whose
handlers set act/edit_field/edit_rows without clearing photo_mode. -/
def exSessionStale : Session :=
  { act := some ("edit".data), kind := some ("meal".data), place := some ("fridge".data),
    editField := some ("text".data), editRows := [⟨1, ("хлеб".data), 0⟩],
    photoMode := some ("wait_photo".data), photoKind := some ("meal".data) }

/-- A delete intent for milk (which `exStore1` does not hold). -/
def aiDelMilk : AiResult :=
  ⟨("delete".data), none, none, some (.many [.js ("молоко".data)])⟩

/-! ## Helper lemmas -/

/-- Folding db_delete over a list of ids removes exactly the rows whose id
is listed. -/
theorem applyDeletes_rows : ∀ (ids : List Nat) (st : Store),
    (applyDeletes st ids).rows = st.rows.filter (fun it => !ids.contains it.id)
  | [], st => by simp [applyDeletes]
  | a :: ids, st => by
    have ih := applyDeletes_rows ids (db_delete st a)
    simp only [applyDeletes, List.foldl_cons] at ih ⊢
    rw [ih]
    simp only [db_delete, List.filter_filter]
    apply List.filter_congr
    intro it _
    simp [eq_comm, Bool.and_comm]

/-- Mapping each ambiguous entry to its ten-candidate truncation does not
change the rendered report: the report already shows only the first ten. -/
theorem concatMap_fix (f : α → List β) (g : α → α) (h : ∀ a, f (g a) = f a) :
    ∀ l : List α, concatMap f (l.map g) = concatMap f l
  | [] => rfl
  | a :: l => by simp [concatMap, h a, concatMap_fix f g h l]

/-! ## C1: the fuzzy matcher -/

/-- Claim C1: for every query and candidate list, find_matches returns the
empty list when the normalized query is empty; otherwise exactly the
candidates whose normalized text equals the normalized query whenever at
least one exact match exists; otherwise exactly the candidates related to
the query by substring containment in either direction. -/
theorem find_matches_policy (rows : List RawRow) (query : Str) :
    (norm query = [] → find_matches rows query = [])
  ∧ (norm query ≠ [] → (∃ r ∈ rows, norm r.text = norm query) →
      find_matches rows query =
        (rows.filter (fun r => decide (norm r.text = norm query))).map (fun r => (r.id, r.text)))
  ∧ (norm query ≠ [] → (∀ r ∈ rows, norm r.text ≠ norm query) →
      find_matches rows query =
        (rows.filter (fun r =>
          isSub (norm query) (norm r.text) || isSub (norm r.text) (norm query))).map
          (fun r => (r.id, r.text))) := by
  refine ⟨?_, ?_, ?_⟩
  · intro h
    simp [find_matches, h]
  · intro h hex
    obtain ⟨r, hr, hrq⟩ := hex
    have hq : (norm query).isEmpty = false := by
      cases hqe : norm query with
      | nil => exact absurd hqe h
      | cons a l => rfl
    have hne : rows.filter (fun r => decide (norm r.text = norm query)) ≠ [] := by
      intro hnil
      have := List.filter_eq_nil_iff.mp hnil r hr
      simp [hrq] at this
    simp only [find_matches, hq, Bool.false_eq_true, if_false]
    rw [if_pos]
    cases hfe : rows.filter (fun r => decide (norm r.text = norm query)) with
    | nil => exact absurd hfe hne
    | cons a l => simp [hfe]
  · intro h hall
    have hq : (norm query).isEmpty = false := by
      cases hqe : norm query with
      | nil => exact absurd hqe h
      | cons a l => rfl
    have hnil : rows.filter (fun r => decide (norm r.text = norm query)) = [] := by
      rw [List.filter_eq_nil_iff]
      intro r hr
      simp [hall r hr]
    simp [find_matches, hq, hnil]

/-! ## C2, C5: the AI delete loop -/

/-- The loop's outcome per phrase: a unique match is deleted, a multiple
match is collected as ambiguous with its full candidate list, anything
else contributes nothing. -/
theorem aiDeleteLoop_spec (rows : List RawRow) : ∀ qs : List Str,
    (aiDeleteLoop rows qs).1 = qs.filterMap (fun q =>
        match find_matches rows q with
        | [m] => some m.1
        | _ => none)
  ∧ (aiDeleteLoop rows qs).2 = qs.filterMap (fun q =>
        if 2 ≤ (find_matches rows q).length then some (q, find_matches rows q) else none)
  | [] => ⟨rfl, rfl⟩
  | q :: qs => by
    obtain ⟨ih1, ih2⟩ := aiDeleteLoop_spec rows qs
    cases hm : find_matches rows q with
    | nil => simp [aiDeleteLoop, hm, ih1, ih2, List.filterMap_cons]
    | cons m1 tl =>
      cases tl with
      | nil => simp [aiDeleteLoop, hm, ih1, ih2, List.filterMap_cons]
      | cons m2 tl2 =>
        have hlen : 2 ≤ (m1 :: m2 :: tl2).length := by
          simp [List.length_cons]
        simp [aiDeleteLoop, hm, ih1, ih2, List.filterMap_cons, hlen]

/-- A phrase the matcher resolves to nothing changes nothing: the loop's
outcome with it is the outcome without it. -/
theorem aiDeleteLoop_skip (rows : List RawRow) (q : Str) (hq : find_matches rows q = []) :
    ∀ qs1 qs2 : List Str,
      aiDeleteLoop rows (qs1 ++ q :: qs2) = aiDeleteLoop rows (qs1 ++ qs2)
  | [], qs2 => by simp [aiDeleteLoop, hq]
  | p :: qs1, qs2 => by
    have ih := aiDeleteLoop_skip rows q hq qs1 qs2
    simp only [List.cons_append, aiDeleteLoop, List.append_eq]
    rw [ih]

/-- Claim C2: in one free-text delete request, every phrase with more than
one candidate causes no deletion and is collected with its candidates into
the ambiguity report (which renders at most the first ten candidates per
phrase), while every phrase with exactly one match has that item deleted
from the store in the same request. -/
theorem ai_delete_ambiguity_policy (st : Store) (rows : List RawRow) (qs : List Str) :
    (aiDeleteLoop rows qs).1 = qs.filterMap (fun q =>
        match find_matches rows q with
        | [m] => some m.1
        | _ => none)
  ∧ (aiDeleteLoop rows qs).2 = qs.filterMap (fun q =>
        if 2 ≤ (find_matches rows q).length then some (q, find_matches rows q) else none)
  ∧ (aiDeleteRun st rows qs).1.rows =
      st.rows.filter (fun it => !(aiDeleteLoop rows qs).1.contains it.id)
  ∧ ((aiDeleteLoop rows qs).2 ≠ [] →
      (aiDeleteRun st rows qs).2 = msgAmb ((aiDeleteLoop rows qs).2))
  ∧ (∀ ab, msgAmb ab = msgAmb (ab.map (fun e => (e.1, e.2.take 10)))) := by
  obtain ⟨h1, h2⟩ := aiDeleteLoop_spec rows qs
  refine ⟨h1, h2, ?_, ?_, ?_⟩
  · simpa [aiDeleteRun] using applyDeletes_rows (aiDeleteLoop rows qs).1 st
  · intro hne
    cases hab : (aiDeleteLoop rows qs).2 with
    | nil => exact absurd hab hne
    | cons e tl => simp [aiDeleteRun, hab]
  · intro ab
    have he : ∀ e : Str × List (Nat × Str), ambEntryLines (e.1, e.2.take 10) = ambEntryLines e := by
      intro e
      simp [ambEntryLines, List.take_take]
    unfold msgAmb
    rw [concatMap_fix ambEntryLines (fun e => (e.1, e.2.take 10)) he ab]

/-! ## C4: index validation -/

/-- contains is membership, for lists of ids. -/
theorem contains_eq_decide_mem (a : Nat) : ∀ l : List Nat, l.contains a = decide (a ∈ l)
  | [] => by simp
  | b :: t => by simp [List.contains_cons, contains_eq_decide_mem a t]

/-- Permuting a list of ids does not change contains. -/
theorem contains_perm {l1 l2 : List Nat} (h : l1.Perm l2) (a : Nat) :
    l1.contains a = l2.contains a := by
  simp [contains_eq_decide_mem, h.mem_iff]

/-- A list is a prefix of itself followed by anything. -/
theorem isPrefixOf_append : ∀ (n b : Str), n.isPrefixOf (n ++ b) = true
  | [], _ => by simp [List.isPrefixOf]
  | c :: n, b => by simp [List.isPrefixOf, isPrefixOf_append n b]

/-- The substring test finds a needle sitting anywhere inside the text. -/
theorem isSub_append_middle : ∀ (a n b : Str), isSub n (a ++ n ++ b) = true
  | [], n, b => by
    simp only [List.nil_append]
    cases hnb : n ++ b with
    | nil =>
      have hn : n = [] := by
        cases n with
        | nil => rfl
        | cons c t => simp at hnb
      subst hn
      simp only [List.nil_append] at hnb
      subst hnb
      simp [isSub]
    | cons h t =>
      have hp := isPrefixOf_append n b
      rw [hnb] at hp
      simp [isSub, hp]
  | c :: a, n, b => by
    have ih := isSub_append_middle a n b
    simp only [List.append_assoc] at ih
    simp [isSub, ih]

/-- Folding the move update over a list of ids retargets exactly the listed
rows. -/
theorem applyMoves_rows (p : Str) (d : Int) : ∀ (ids : List Nat) (st : Store),
    ((ids.foldl (fun acc i => db_update_place_and_date acc i p d) st)).rows =
      st.rows.map (fun it => if ids.contains it.id then { it with place := p, date := d } else it)
  | [], st => by simp
  | a :: ids, st => by
    have ih := applyMoves_rows p d ids (db_update_place_and_date st a p d)
    simp only [List.foldl_cons] at ih ⊢
    rw [ih]
    simp only [db_update_place_and_date, List.map_map]
    apply List.map_congr_left
    intro it _
    by_cases h1 : it.id = a <;> by_cases h2 : ids.contains it.id <;>
      simp [Function.comp, h1, h2, List.contains_cons]

/-- Under a delete-by-index session, on_text runs the delete branch on the
recorded snapshot. -/
theorem on_text_del (priv admin : Bool) (ai : AiResult) (now : Int) (s : Session)
    (st : Store) (raw : Str) (rows : List SnapRow)
    (hphoto : s.photoMode ≠ some ("wait_photo".data))
    (hact : s.act = some ("del".data)) (hrows : s.delRows = some rows) :
    on_text priv admin ai now s st raw = delBranch s st rows (stripWs raw) := by
  have hedit : (s.act = some ("edit".data)) = False := by
    simp [hact]
  have hmove : decide (s.act = some ("move".data)) = false := by
    simp [hact]
  have hadd : decide (s.act = some ("add".data)) = false := by
    simp [hact]
  have hdel : decide (s.act = some ("del".data)) = true := by
    simp [hact]
  simp [on_text, hedit, on_text_afterEdit, hphoto, hmove, hadd, hdel, hrows]

/-- Under a move-by-index session, on_text runs the move branch on the
recorded snapshot. -/
theorem on_text_move (priv admin : Bool) (ai : AiResult) (now : Int) (s : Session)
    (st : Store) (raw : Str) (rows : List SnapRow)
    (hphoto : s.photoMode ≠ some ("wait_photo".data))
    (hact : s.act = some ("move".data)) (hrows : s.moveRows = some rows) :
    on_text priv admin ai now s st raw = moveBranch now s st rows (stripWs raw) := by
  have hedit : (s.act = some ("edit".data)) = False := by
    simp [hact]
  have hmove : decide (s.act = some ("move".data)) = true := by
    simp [hact]
  simp [on_text, hedit, on_text_afterEdit, hphoto, hmove, hrows]

/-- A non-nil list has isEmpty false. -/
theorem isEmpty_false_of_ne {α} {l : List α} (h : l ≠ []) : l.isEmpty = false := by
  cases l with
  | nil => exact absurd rfl h
  | cons a t => rfl

/-- Claim C4 (amended): for delete-by-index and move-by-index, out-of-range
indices are silently dropped; when at least one index is valid exactly the
valid subset is applied and the reply reports only the count of applied
operations; when none is valid nothing is deleted or moved, the session is
retained, and the reply is the range hint, which contains the valid range
1..n. -/
theorem index_validation_policy (priv admin : Bool) (ai : AiResult) (now : Int)
    (s : Session) (st : Store) (raw : Str) (rows : List SnapRow) (dst : Str) :
    isSub (("1..".data) ++ natStr rows.length) (msgRange rows.length) = true
  ∧ (s.photoMode ≠ some ("wait_photo".data) → s.act = some ("del".data) →
      s.delRows = some rows → parse_delete_nums (stripWs raw) ≠ [] →
        (validIdx rows (parse_delete_nums (stripWs raw)) = [] →
          on_text priv admin ai now s st raw = (s, st, msgRange rows.length))
      ∧ (validIdx rows (parse_delete_nums (stripWs raw)) ≠ [] →
          (on_text priv admin ai now s st raw).2.1.rows =
            st.rows.filter (fun it =>
              !(snapIds rows (validIdx rows (parse_delete_nums (stripWs raw)))).contains it.id)
        ∧ (on_text priv admin ai now s st raw).2.2 =
            msgDeleted (validIdx rows (parse_delete_nums (stripWs raw))).length))
  ∧ (s.photoMode ≠ some ("wait_photo".data) → s.act = some ("move".data) →
      s.moveRows = some rows → s.moveTo = some dst → dst ∈ VALID_PLACES →
      parse_delete_nums (stripWs raw) ≠ [] →
        (validIdx rows (parse_delete_nums (stripWs raw)) = [] →
          on_text priv admin ai now s st raw = (s, st, msgRange rows.length))
      ∧ (validIdx rows (parse_delete_nums (stripWs raw)) ≠ [] →
          (on_text priv admin ai now s st raw).2.1.rows =
            st.rows.map (fun it =>
              if (snapIds rows (validIdx rows (parse_delete_nums (stripWs raw)))).contains it.id
              then { it with place := dst, date := now } else it)
        ∧ (on_text priv admin ai now s st raw).2.2 =
            msgMoved (validIdx rows (parse_delete_nums (stripWs raw))).length)) := by
  refine ⟨?_, ?_, ?_⟩
  · unfold msgRange
    rw [show ("Сейчас доступно 1..".data) = ("Сейчас доступно ".data) ++ ("1..".data) from by decide]
    have h := isSub_append_middle ("Сейчас доступно ".data)
      (("1..".data) ++ natStr rows.length) ((". Попробуй снова.".data))
    simp only [List.append_assoc] at h ⊢
    exact h
  · intro hphoto hact hrows hnums
    rw [on_text_del priv admin ai now s st raw rows hphoto hact hrows]
    constructor
    · intro hv
      simp [delBranch, isEmpty_false_of_ne hnums, hv]
    · intro hv
      have hperm : (snapIds rows (List.insertionSort descNat
          (validIdx rows (parse_delete_nums (stripWs raw))))).Perm
          (snapIds rows (validIdx rows (parse_delete_nums (stripWs raw)))) :=
        (List.perm_insertionSort descNat _).map _
      constructor
      · simp only [delBranch, isEmpty_false_of_ne hnums, isEmpty_false_of_ne hv,
          Bool.false_eq_true, if_false]
        rw [applyDeletes_rows]
        apply List.filter_congr
        intro it _
        rw [contains_perm hperm]
      · simp [delBranch, isEmpty_false_of_ne hnums, isEmpty_false_of_ne hv]
  · intro hphoto hact hrows hdst hdstv hnums
    rw [on_text_move priv admin ai now s st raw rows hphoto hact hrows]
    constructor
    · intro hv
      simp [moveBranch, isEmpty_false_of_ne hnums, hv]
    · intro hv
      have hperm : (snapIds rows (List.insertionSort descNat
          (validIdx rows (parse_delete_nums (stripWs raw))))).Perm
          (snapIds rows (validIdx rows (parse_delete_nums (stripWs raw)))) :=
        (List.perm_insertionSort descNat _).map _
      constructor
      · simp only [moveBranch, isEmpty_false_of_ne hnums, isEmpty_false_of_ne hv,
          Bool.false_eq_true, if_false, hdst, hdstv, if_pos]
        rw [applyMoves_rows]
        apply List.map_congr_left
        intro it _
        rw [contains_perm hperm]
      · simp [moveBranch, isEmpty_false_of_ne hnums, isEmpty_false_of_ne hv, hdst, hdstv]

/-- Counterexample to C4 as stated: with a three-row working set and the
message "2 9", only index 2 is deleted and the reply is the bare count
"Удалил ✅ 1 шт." — index 9 is not reported back as out of range (no "9"
occurs in the reply), contrary to the claim. -/
theorem del_out_of_range_not_reported :
    (on_text true true aiUnknown 0 exSessionDel exStore3 ("2 9".data)).2.1.rows.map
        (fun it => it.id) = [1, 3]
  ∧ (on_text true true aiUnknown 0 exSessionDel exStore3 ("2 9".data)).2.2 = msgDeleted 1
  ∧ isSub ("9".data) (on_text true true aiUnknown 0 exSessionDel exStore3 ("2 9".data)).2.2
      = false := by
  decide

/-! ## C5: unmatched phrases -/

/-- Claim C5 (amended): a phrase whose fuzzy-match result is empty is
silently skipped — it deletes nothing and is not reported; the request's
store mutations and reply are identical to those of the same request
without that phrase. -/
theorem ai_delete_unmatched_skip (st : Store) (rows : List RawRow) (qs1 qs2 : List Str)
    (q : Str) (hq : find_matches rows q = []) :
    aiDeleteRun st rows (qs1 ++ q :: qs2) = aiDeleteRun st rows (qs1 ++ qs2) := by
  unfold aiDeleteRun
  rw [aiDeleteLoop_skip rows q hq qs1 qs2]

/-- Witness for the amended C5 at a concrete request: deleting
"молоко, хлеб" over a bread-only store behaves like deleting just "хлеб". -/
theorem ai_delete_unmatched_skip_witness :
    find_matches exRows1 ("молоко".data) = []
  ∧ aiDeleteRun exStore1 exRows1 ([] ++ ("молоко".data) :: [("хлеб".data)])
      = aiDeleteRun exStore1 exRows1 ([] ++ [("хлеб".data)]) :=
  ⟨by decide,
    ai_delete_unmatched_skip exStore1 exRows1 [] [("хлеб".data)] ("молоко".data) (by decide)⟩

/-- Counterexample to C5 as stated: the free-text request "убери молоко"
over a store holding only bread matches nothing, yet the reply is the bare
"🤖 Удалил 0 шт." — the phrase is not reported as not found (the reply does
not even mention it), and the store is unchanged. -/
theorem ai_delete_unmatched_silent :
    (on_text true true aiDelMilk 0 emptySession exStore1 ("убери молоко".data)).2.2
      = msgAiDeleted 0
  ∧ isSub ("молоко".data)
      (on_text true true aiDelMilk 0 emptySession exStore1 ("убери молоко".data)).2.2 = false
  ∧ (on_text true true aiDelMilk 0 emptySession exStore1 ("убери молоко".data)).2.1
      = exStore1 := by
  decide

/-! ## C6: photo-mode input gating -/

/-- Claim C6 (amended): while a photo is awaited, any text message is
answered only with the photo reminder — session and store untouched, no
command run — unless the session also carries an active edit flow, since
the edit branch precedes the photo gate in on_text; when the active flow
is not the edit flow, or the edit branch falls through, the gate fires.
While no photo is awaited, any photo is rejected outright — the session
(hence any pending candidate) is untouched and the result does not depend
on the resolver's output. -/
theorem photo_input_gating (priv admin : Bool) (ai : AiResult) (now : Int)
    (s s2 : Session) (st : Store) (raw : Str) (parsed : List Str) :
    (s.photoMode = some ("wait_photo".data) → s.act ≠ some ("edit".data) →
      on_text priv admin ai now s st raw =
        (s, st, msgWaitPhoto (s.photoKind.getD ("ingredient".data))))
  ∧ (s.photoMode = some ("wait_photo".data) → s.act = some ("edit".data) →
      editBranch priv admin s st (stripWs raw) = none →
      on_text priv admin ai now s st raw =
        (s, st, msgWaitPhoto (s.photoKind.getD ("ingredient".data))))
  ∧ (s2.photoMode ≠ some ("wait_photo".data) →
      on_photo parsed s2 = (s2, msgPhotoReject)) := by
  refine ⟨?_, ?_, ?_⟩
  · intro hpm hact
    simp [on_text, hact, on_text_afterEdit, hpm]
  · intro hpm hact hnone
    simp [on_text, hact, hnone, on_text_afterEdit, hpm]
  · intro hpm
    simp [on_photo, hpm]

/-- Counterexample to C6 as stated: a session awaiting a photo that also
holds stale edit-flow keys (reachable through old inline buttons, whose
handlers do not clear photo_mode) routes the text "1 Борщ" into the edit
branch, which precedes the photo gate: the store row is renamed and the
reply is the edit confirmation, not the photo reminder — the text was
interpreted as a command and mutated the store while photo_mode was
wait_photo. -/
theorem wait_photo_edit_leak :
    exSessionStale.photoMode = some ("wait_photo".data)
  ∧ (on_text true true aiUnknown 0 exSessionStale exStore1 ("1 Борщ".data)).2.1.rows.map
      (fun it => it.text) = [("Борщ".data)]
  ∧ (on_text true true aiUnknown 0 exSessionStale exStore1 ("1 Борщ".data)).2.2 = msgEditDone
  ∧ (on_text true true aiUnknown 0 exSessionStale exStore1 ("1 Борщ".data)).2.2
      ≠ msgWaitPhoto (exSessionStale.photoKind.getD ("ingredient".data)) := by
  decide

/-! ## C7: single-dish truncation of meal photos -/

/-- Claim C7: for a meal photo the resolved item list is truncated to its
first name at the resolver-adapting boundary (ai_parse_photo), and the
photo handler truncates again before the pending candidate is stored, so
the pending candidate of a meal photo with several resolved names keeps
exactly the first one. -/
theorem photo_meal_single_dish (raw : AiItems) (s : Session) (parsed : List Str) :
    (ai_parse_photo ("meal".data) raw).2 = (cleanItems (rawItemsList raw)).take 1
  ∧ (ai_parse_photo ("meal".data) raw).2.length ≤ 1
  ∧ (s.photoMode = some ("wait_photo".data) → s.photoKind = some ("meal".data) →
      cleanItems parsed ≠ [] →
      (on_photo parsed s).1.pendingPhoto =
        some ⟨("meal".data), ("fridge".data), (cleanItems parsed).take 1⟩) := by
  have hk : ("meal".data) ∈ VALID_KINDS := by decide
  refine ⟨?_, ?_, ?_⟩
  · simp [ai_parse_photo, hk]
  · simp [ai_parse_photo, hk, List.length_take]
  · intro h1 h2 h3
    have htake : (cleanItems parsed).take 1 ≠ [] := by
      cases hc : cleanItems parsed with
      | nil => exact absurd hc h3
      | cons a t => simp
    simp [on_photo, h1, h2, hk, isEmpty_false_of_ne htake]

/-! ## C10: photo confirm without a pending candidate -/

/-- Claim C10: a photo-confirm button event arriving with no pending photo
candidate adds nothing to the store and resets the session to the idle main
menu. -/
theorem photo_confirm_no_pending (now : Int) (s : Session) (st : Store)
    (h : s.pendingPhoto = none) :
    on_button_photo_confirm now s st = (emptySession, st, WELCOME_TEXT) := by
  simp [on_button_photo_confirm, h]

/-- Witness: the no-pending confirm at a concrete session and store. -/
theorem photo_confirm_no_pending_witness :
    on_button_photo_confirm 0 emptySession exStore1 = (emptySession, exStore1, WELCOME_TEXT) :=
  photo_confirm_no_pending 0 emptySession exStore1 rfl

/-! ## C3: persisted-row invariants -/

/-- dropWhile is idempotent. -/
theorem dropWhile_idem {α} (p : α → Bool) : ∀ l : List α,
    (l.dropWhile p).dropWhile p = l.dropWhile p
  | [] => rfl
  | c :: l => by
    by_cases h : p c
    · simp [List.dropWhile_cons, h, dropWhile_idem p l]
    · simp [List.dropWhile_cons, h]

/-- What dropWhile leaves starts with an element the predicate rejects. -/
theorem dropWhile_head_false {α} (p : α → Bool) : ∀ (l : List α) (a : α) (t : List α),
    l.dropWhile p = a :: t → p a = false
  | [], a, t => by intro h; simp at h
  | c :: l, a, t => by
    intro h
    by_cases hc : p c
    · rw [List.dropWhile_cons, if_pos hc] at h
      exact dropWhile_head_false p l a t h
    · rw [List.dropWhile_cons, if_neg hc] at h
      cases h
      cases hpc : p c with
      | false => rfl
      | true => exact absurd hpc hc

/-- Python strip is idempotent: a stripped text is its own strip. -/
theorem stripWs_idem (s : Str) : stripWs (stripWs s) = stripWs s := by
  have hyx : stripWs s <+: s.dropWhile Char.isWhitespace := by
    rw [stripWs]
    conv_rhs => rw [← List.reverse_reverse (List.dropWhile Char.isWhitespace s)]
    exact List.reverse_prefix.mpr (List.dropWhile_suffix _)
  have hA : (stripWs s).dropWhile Char.isWhitespace = stripWs s := by
    cases hyc : stripWs s with
    | nil => rfl
    | cons a t =>
      obtain ⟨tl, htl⟩ := hyx
      rw [hyc] at htl
      have hx_cons : s.dropWhile Char.isWhitespace = a :: (t ++ tl) := by
        rw [← htl]
        simp
      have hpa : Char.isWhitespace a = false := dropWhile_head_false _ s a (t ++ tl) hx_cons
      rw [List.dropWhile_cons, if_neg (by simp [hpa])]
  have hry : (stripWs s).reverse =
      (s.dropWhile Char.isWhitespace).reverse.dropWhile Char.isWhitespace := by
    rw [stripWs]
    simp
  show (((stripWs s).dropWhile Char.isWhitespace).reverse.dropWhile Char.isWhitespace).reverse
      = stripWs s
  rw [hA, hry, dropWhile_idem, ← hry]
  simp

/-- The insert-and-count loop: the count is the number of non-blank names
and the store grows by exactly that many rows. -/
theorem addStrs_spec (now : Int) (kind place : Str) : ∀ (items : List Str) (st : Store),
    (addStrs now kind place st items).2 =
      (items.filter (fun i => !(stripWs i).isEmpty)).length
  ∧ (addStrs now kind place st items).1.rows.length =
      st.rows.length + (addStrs now kind place st items).2
  | [], st => by simp [addStrs]
  | i :: items, st => by
    by_cases h : (stripWs i).isEmpty
    · obtain ⟨ih1, ih2⟩ := addStrs_spec now kind place items st
      simp [addStrs, h, List.filter_cons, ih1, ih2]
    · obtain ⟨ih1, ih2⟩ :=
        addStrs_spec now kind place items (db_add now st kind place (stripWs i))
      have hrow : (db_add now st kind place (stripWs i)).rows.length = st.rows.length + 1 := by
        have hne : ((stripWs (stripWs i))).isEmpty = false := by
          rw [stripWs_idem]
          cases hh : (stripWs i).isEmpty with
          | false => rfl
          | true => exact absurd hh (by simpa using h)
        simp [db_add, hne]
      simp only [addStrs, h, Bool.false_eq_true, if_false, ih1, ih2, hrow,
        List.filter_cons]
      constructor
      · simp [h]
      · omega

/-- Claim C3: a blank-text insert is silently skipped leaving the store
unchanged; a non-blank insert appends one row whose category/location are
the given values when valid and the defaults ingredient/fridge when not,
and whose text is non-empty and trimmed; the row invariant is preserved;
and the photo/AI insert loop counts exactly the non-blank names it
inserts. -/
theorem store_row_invariants (now : Int) (st : Store) (k p t : Str) (items : List Str) :
    (stripWs t = [] → bot_db_add now st k p t = st)
  ∧ (stripWs t ≠ [] → ∃ r : Item,
        (bot_db_add now st k p t).rows = st.rows ++ [r]
      ∧ validItem r
      ∧ (k ∈ VALID_KINDS → r.kind = k)
      ∧ (k ∉ VALID_KINDS → r.kind = ("ingredient".data))
      ∧ (p ∈ VALID_PLACES → r.place = p)
      ∧ (p ∉ VALID_PLACES → r.place = ("fridge".data))
      ∧ r.text = stripWs t)
  ∧ ((∀ it ∈ st.rows, validItem it) → ∀ it ∈ (bot_db_add now st k p t).rows, validItem it)
  ∧ (addStrs now k p st items).2 = (items.filter (fun i => !(stripWs i).isEmpty)).length
  ∧ (addStrs now k p st items).1.rows.length =
      st.rows.length + (addStrs now k p st items).2 := by
  have hmk : ("meal".data) ∈ VALID_KINDS := by decide
  have hik : ("ingredient".data) ∈ VALID_KINDS := by decide
  have hfp : ("fridge".data) ∈ VALID_PLACES := by decide
  have hadd := addStrs_spec now k p items st
  have hnew : stripWs t ≠ [] → ∃ r : Item,
      (bot_db_add now st k p t).rows = st.rows ++ [r]
    ∧ validItem r
    ∧ (k ∈ VALID_KINDS → r.kind = k)
    ∧ (k ∉ VALID_KINDS → r.kind = ("ingredient".data))
    ∧ (p ∈ VALID_PLACES → r.place = p)
    ∧ (p ∉ VALID_PLACES → r.place = ("fridge".data))
    ∧ r.text = stripWs t := by
    intro hne
    refine ⟨⟨st.nextId,
      if k ∈ VALID_KINDS then k else ("ingredient".data),
      if p ∈ VALID_PLACES then p else ("fridge".data),
      stripWs t, now⟩, ?_, ?_, ?_, ?_, ?_, ?_, rfl⟩
    · simp [bot_db_add, isEmpty_false_of_ne hne]
    · refine ⟨?_, ?_, stripWs_idem t, hne⟩
      · by_cases hk : k ∈ VALID_KINDS <;> simp [hk, hik]
      · by_cases hp : p ∈ VALID_PLACES <;> simp [hp, hfp]
    · intro hk; simp [hk]
    · intro hk; simp [hk]
    · intro hp; simp [hp]
    · intro hp; simp [hp]
  refine ⟨?_, hnew, ?_, hadd.1, hadd.2⟩
  · intro h
    simp [bot_db_add, h]
  · intro hinv it hit
    by_cases hne : stripWs t = []
    · rw [(by simp [bot_db_add, hne] : bot_db_add now st k p t = st)] at hit
      exact hinv it hit
    · obtain ⟨r, hrows, hvr, _⟩ := hnew hne
      rw [hrows] at hit
      rcases List.mem_append.mp hit with hold | hnew2
      · exact hinv it hold
      · rw [List.mem_singleton.mp hnew2]
        exact hvr

/-! ## C8: numeric selection parsing -/

/-- Claim C8 (amended): parse_delete_nums returns the sorted duplicate-free
list of the nonnegative integers denoted by the digit-only tokens of the
message (split at spaces, commas and semicolons); any other token
contributes nothing.  A token "0" therefore yields 0, which is not
positive. -/
theorem parse_delete_nums_spec (s : Str) :
    (parse_delete_nums s).Sorted (· ≤ ·)
  ∧ (parse_delete_nums s).Nodup
  ∧ (∀ n : Nat, n ∈ parse_delete_nums s ↔
      ∃ tok ∈ splitWs (s.map (fun c => if c = ',' ∨ c = ';' then ' ' else c)),
        (!tok.isEmpty && tok.all Char.isDigit) = true ∧ digitsToNat tok = n) := by
  refine ⟨List.sorted_insertionSort _ _, ?_, ?_⟩
  · exact (List.perm_insertionSort _ _).symm.nodup (List.nodup_dedup _)
  · intro n
    simp only [parse_delete_nums, List.mem_insertionSort, List.mem_dedup, List.mem_map,
      List.mem_filter]
    constructor
    · rintro ⟨tok, ⟨htok, hpred⟩, hval⟩
      exact ⟨tok, htok, hpred, hval⟩
    · rintro ⟨tok, htok, hpred, hval⟩
      exact ⟨tok, ⟨htok, hpred⟩, hval⟩

/-- Counterexample to C8 as stated: the message "0" yields [0], and 0 is
not a positive integer — the claim predicts the empty list here. -/
theorem parse_delete_nums_zero :
    parse_delete_nums ("0".data) = [0] ∧ (0 : Nat) ∈ parse_delete_nums ("0".data) := by
  decide

/-! ## C9: digest ordering and staleness flags -/

/-- Claim C9: the digest builders order their entries by descending age in
days, with ties broken alphabetically by (case-folded) item name, and each
listed entry carries the staleness flag exactly when its age is at least 3
days. -/
theorem digest_order_and_flags (nowDay : Int) (items : List DigestItem) :
    (digest_entries nowDay items).Pairwise (fun a b =>
      b.days < a.days ∨ (a.days = b.days ∧ pyLower a.text ≤ pyLower b.text))
  ∧ digest_lines nowDay items = ((digest_entries nowDay items).take 3).map (fun e =>
      ("• ".data) ++ e.text ++ (if 3 ≤ e.days then staleFlag else [])) := by
  constructor
  · have hs : (digest_entries nowDay items).Sorted entryLe :=
      List.sorted_insertionSort entryLe _
    refine hs.imp ?_
    intro a b h
    unfold entryLe entryKey at h
    rcases (Prod.Lex.le_iff _ _).mp h with hlt | ⟨heq, hle⟩
    · exact Or.inl (neg_lt_neg_iff.mp hlt)
    · exact Or.inr ⟨neg_inj.mp heq, hle⟩
  · rfl

end FridgeBot
